import Mathlib

/-!
# SiliconWeb: asset directives of the Silicon template engine

A shallow embedding of `siliconweb.cpp`.

* A `std::string` is a Lean `String`; `empty`, `front`, `back` and `substr`
  read its character list.
* A `Silicon::StringMap` (`std::map<std::string, std::string>`) is an
  association list read through `find`, the first binding of a key being the
  one the map holds.
* The render context `Silicon` holds the keyword store and the named
  collections; the directives thread it explicitly.
* The static members `_defaultUrl`, `_cssUrl`, `_jsUrl`, `_renderDefault` are
  the fields of `Config`.
* Dereferencing `args.end()` (or the `end()` of a record) is undefined
  behaviour in C++; a directive that does so returns `none`.
-/

namespace SiliconWeb

/-! ## Strings -/

/-- The test `std::string::empty`. -/
def empty (s : String) : Bool := s.data.isEmpty

/-- The accessor `std::string::back`, read on a non-empty string. -/
def back (s : String) : Char := s.data.getLastD (Char.ofNat 0)

/-- The accessor `std::string::front`, which reads `operator[](0)`: on the empty
string that is the terminating null character. -/
def front (s : String) : Char := s.data.headD (Char.ofNat 0)

/-- The call `std::string::substr(pos)`: the characters from `pos` on. -/
def substr (s : String) (pos : Nat) : String := ⟨s.data.drop pos⟩

/-- The helper `addSlash` of the anonymous namespace (lines 48-51). -/
def addSlash (path : String) : String :=
  if (!empty path) && (back path != '/') then path ++ "/" else path

/-! ## Maps, the render context and the process-wide configuration -/

/-- The type `Silicon::StringMap`. -/
abbrev StringMap := List (String × String)

/-- The lookup `std::map::find`: `none` stands for `end()`. -/
def find (m : StringMap) (k : String) : Option String := m.lookup k

/-- The render context: keywords and named collections. -/
structure Silicon where
  keywords : String → Option String
  collections : String → List StringMap

/-- Modelled from the spec: the host engine's two-argument
`getKeyword(key, outRef) -> bool`, which reports presence and fills the
output; `some v` is `true` with `v` stored, `none` is `false`. -/
def Silicon.getKeyword? (s : Silicon) (kw : String) : Option String := s.keywords kw

/-- Modelled from the spec: the host engine's one-argument `getKeyword(key)`,
whose result the source tests with `.empty()`: an absent keyword reads as the
empty string. -/
def Silicon.getKeyword (s : Silicon) (kw : String) : String :=
  match s.getKeyword? kw with
  | some v => v
  | none => ""

/-- Modelled from the spec: the host engine's `getCollection(name)`, the
ordered sequence of records stored under `name`. -/
def Silicon.getCollection (s : Silicon) (name : String) : List StringMap := s.collections name

/-- Modelled from the spec: the host engine's `addToCollection(name, record)`,
which appends `record` at the end of the collection `name`. -/
def Silicon.addToCollection (s : Silicon) (name : String) (record : StringMap) : Silicon :=
  { s with collections := fun n => if n = name then s.collections n ++ [record] else s.collections n }

/-- The static members of `SiliconWeb` (lines 54-57), read by `defaultUrl()`,
`cssUrl()`, `jsUrl()` and `_renderDefault`. -/
structure Config where
  defaultUrl : String
  cssUrl : String
  jsUrl : String
  renderDefault : Bool

/-! ## URL synthesis and render mode -/

/-- The method `SiliconWeb::getBaseUrl` (lines 132-137). -/
def getBaseUrl (cfg : Config) (s : Silicon) : String :=
  match s.getKeyword? "_baseURL" with
  | some baseURL => addSlash baseURL
  | none => addSlash cfg.defaultUrl

/-- The method `SiliconWeb::getCssUrl` (lines 139-154). The value of
`cssURL.substr(1)` is computed and dropped: `cssURL` is not reassigned. -/
def getCssUrl (cfg : Config) (s : Silicon) : String :=
  let cssURL := match s.getKeyword? "_cssURL" with
    | some v => v
    | none => cfg.cssUrl
  let basePath := getBaseUrl cfg s
  if empty basePath && empty cssURL then ""
  else
    let cssURL := if front cssURL = '/' then (fun _ => cssURL) (substr cssURL 1) else cssURL
    addSlash (basePath ++ cssURL)

/-- The method `SiliconWeb::getJsUrl` (lines 235-250), with the same dropped
`substr(1)`. -/
def getJsUrl (cfg : Config) (s : Silicon) : String :=
  let jsURL := match s.getKeyword? "_jsURL" with
    | some v => v
    | none => cfg.jsUrl
  let basePath := getBaseUrl cfg s
  if empty basePath && empty jsURL then ""
  else
    let jsURL := if front jsURL = '/' then (fun _ => jsURL) (substr jsURL 1) else jsURL
    addSlash (basePath ++ jsURL)

/-- The method `SiliconWeb::getDoRender` (lines 156-160). -/
def getDoRender (cfg : Config) (s : Silicon) : Bool :=
  let render := s.getKeyword "_renderResources"
  if empty render then cfg.renderDefault else render != "0"

/-! ## Directives -/

/-- The directive `SiliconWeb::includeCss` (lines 111-130). In the buffered
branch the record reads `media->second` without a test: with no `media`
argument that dereferences `args.end()`. -/
def includeCss (cfg : Config) (s : Silicon) (args : StringMap) (_input : String) :
    Option (String × Silicon) :=
  match find args "file" with
  | none => some ("", s)
  | some file =>
    let media := find args "media"
    let out := "<link href=\"" ++ getCssUrl cfg s ++ file ++ "\" rel=\"stylesheet\" type=\"text/css\""
    let out := match media with
      | some m => out ++ (" media=\"" ++ m ++ "\"")
      | none => out
    let out := out ++ " />"
    if getDoRender cfg s then some (out, s)
    else
      match media with
      | none => none
      | some m =>
        some ("", s.addToCollection "_CSS"
          [("file", file), ("href", getCssUrl cfg s ++ file), ("media", m), ("code", out)])

/-- The directive `SiliconWeb::includeJs` (lines 162-177). -/
def includeJs (cfg : Config) (s : Silicon) (args : StringMap) (_input : String) :
    Option (String × Silicon) :=
  match find args "file" with
  | none => some ("", s)
  | some file =>
    let out := "<script type=\"text/javascript\" src=\"" ++ getJsUrl cfg s ++ file
      ++ "\" rel=\"stylesheet\"></script>"
    if getDoRender cfg s then some (out, s)
    else
      some ("", s.addToCollection "_JS"
        [("file", file), ("src", getJsUrl cfg s ++ file), ("code", out)])

/-- The directive `SiliconWeb::directJs` (lines 179-187). -/
def directJs (_cfg : Config) (s : Silicon) (_args : StringMap) (input : String) :
    Option (String × Silicon) :=
  if empty input then some ("", s)
  else some ("", s.addToCollection "_directJS" [("code", input)])

/-- The loop over a collection shared by the render directives: every record
adds its `code` and a newline to `out`; a record without `code` dereferences
its `end()`. -/
def appendCodes (out : String) : List StringMap → Option String
  | [] => some out
  | r :: rest =>
    match find r "code" with
    | none => none
    | some code => appendCodes (out ++ (code ++ "\n")) rest

/-- The directive `SiliconWeb::renderCss` (lines 86-109). -/
def renderCss (_cfg : Config) (s : Silicon) (args : StringMap) (_input : String) :
    Option (String × Silicon) :=
  let list := s.getCollection "_CSS"
  if list.isEmpty then some ("", s)
  else
    let printComment := match find args "comments" with
      | some c => c != "0"
      | none => false
    let out := ""
    let out := if printComment then out ++ "<!-- Start styles -->\n" else out
    match appendCodes out list with
    | none => none
    | some out =>
      let out := if printComment then out ++ "<!-- End styles -->\n" else out
      some (out, s)

/-- The directive `SiliconWeb::renderJs` (lines 189-233). -/
def renderJs (_cfg : Config) (s : Silicon) (args : StringMap) (_input : String) :
    Option (String × Silicon) :=
  let out := ""
  let printComment := match find args "comments" with
    | some c => c != "0"
    | none => false
  let out := if printComment then out ++ "<!-- Start scripts -->\n" else out
  let renderFiles := match find args "files" with
    | some t => t != "0"
    | none => true
  let renderDirect := match find args "direct" with
    | some t => t != "0"
    | none => true
  let files := if renderFiles then
      (let list := s.getCollection "_JS"
       if !list.isEmpty then appendCodes out list else some out)
    else some out
  match files with
  | none => none
  | some out =>
    let direct := if renderDirect then
        (let list := s.getCollection "_directJS"
         if !list.isEmpty then
           (match appendCodes (out ++ "<script type=\"text/javascript\">") list with
            | none => none
            | some out => some (out ++ "</script>\n"))
         else some out)
      else some out
    match direct with
    | none => none
    | some out =>
      let out := if printComment then out ++ "<!-- End scripts -->\n" else out
      some (out, s)

/-! ## Concrete inputs -/

/-- The configuration the statics are initialised to (lines 54-57). -/
def cfgDefault : Config := ⟨"", "", "", true⟩

/-- A render context with the given keywords and no collection entries. -/
def contextOf (kws : List (String × String)) : Silicon := ⟨fun k => kws.lookup k, fun _ => []⟩

/-- Path segments that already end in two slashes. -/
def ctxDoubleSlash : Silicon := contextOf [("_cssURL", "css//"), ("_jsURL", "js//")]

/-- Path segments without slashes at either end, under a base URL. -/
def ctxPlainPaths : Silicon :=
  contextOf [("_baseURL", "http://x"), ("_cssURL", "css"), ("_jsURL", "js")]

/-- Path segments that start with a slash, under a base URL. -/
def ctxLeadingSlash : Silicon :=
  contextOf [("_baseURL", "http://x"), ("_cssURL", "/css"), ("_jsURL", "/js")]

/-- The scenario context of the CDN example. -/
def ctxCdn : Silicon :=
  contextOf [("_baseURL", "http://cdn.example.com"), ("_cssURL", "assets/css")]

/-- A context whose `_renderResources` keyword asks for immediate rendering. -/
def ctxImmediate : Silicon := contextOf [("_renderResources", "1")]

/-- A context whose `_renderResources` keyword asks for buffering. -/
def ctxBuffered : Silicon := contextOf [("_renderResources", "0")]

/-- A context with no keyword and no collection entry. -/
def ctxNone : Silicon := contextOf []

/-- A run of `includeCss` calls, one per argument map, threading the context;
it stops at the first call that is undefined. -/
def includeCssAll (cfg : Config) (s : Silicon) : List StringMap → Option Silicon
  | [] => some s
  | args :: rest =>
    match includeCss cfg s args "" with
    | none => none
    | some (_, s') => includeCssAll cfg s' rest

/-- A context whose `_baseURL` keyword is set to the empty string. -/
def ctxEmptyBase : Silicon := contextOf [("_baseURL", "")]

/-- A configuration with non-empty defaults and buffering by default. -/
def cfgWithDefaults : Config := ⟨"http://d", "css", "js", false⟩

/-- A base URL with no path segment configured. -/
def ctxBaseOnly : Silicon := contextOf [("_baseURL", "http://x")]

/-- A context that renders immediately and holds two buffered records in each
of `_CSS`, `_JS` and `_directJS`. -/
def ctxAssets : Silicon :=
  ⟨fun k => if k = "_renderResources" then some "1" else none,
   fun n =>
    if n = "_CSS" then
      [[("file", "a.css"), ("code", "<link href=\"a.css\" />")],
       [("file", "b.css"), ("code", "<link href=\"b.css\" />")]]
    else if n = "_JS" then
      [[("file", "a.js"), ("code", "<script src=\"a.js\"></script>")],
       [("file", "b.js"), ("code", "<script src=\"b.js\"></script>")]]
    else if n = "_directJS" then [[("code", "f();")], [("code", "g();")]]
    else []⟩

theorem empty_eq_true_iff (s : String) : empty s = true ↔ s = "" := by
  unfold empty
  constructor
  · intro h
    apply String.ext
    simpa [List.isEmpty_iff] using h
  · intro h
    subst h
    rfl

theorem empty_eq_false_iff (s : String) : empty s = false ↔ s ≠ "" := by
  have h := empty_eq_true_iff s
  cases hs : empty s <;> simp [hs] at h ⊢ <;> exact h

theorem addSlash_empty : addSlash "" = "" := by decide

theorem addSlash_of_back_ne (p : String) (hne : p ≠ "") (hb : back p ≠ '/') :
    addSlash p = p ++ "/" := by
  have h1 : empty p = false := (empty_eq_false_iff p).2 hne
  simp [addSlash, h1, hb]

theorem addSlash_of_back_eq (p : String) (hb : back p = '/') : addSlash p = p := by
  simp [addSlash, hb]

theorem ends_slash_of_back (p : String) (hne : p ≠ "") (hb : back p = '/') :
    ∃ t : String, p = t ++ "/" := by
  have hd : p.data ≠ [] := fun h => hne (String.ext h)
  refine ⟨⟨p.data.dropLast⟩, String.ext ?_⟩
  have h2 := List.dropLast_append_getLast hd
  have h3 : p.data.getLast hd = '/' := by
    unfold back at hb
    rw [List.getLastD_eq_getLast?, List.getLast?_eq_getLast _ hd] at hb
    simpa using hb
  rw [h3] at h2
  simpa using h2.symm

theorem back_append_slash (t : String) : back (t ++ "/") = '/' := by
  unfold back
  simp [List.getLastD_eq_getLast?]

theorem append_ne_empty (t u : String) (hu : u ≠ "") : t ++ u ≠ "" := by
  intro h
  have := congrArg String.data h
  simp at this
  exact hu (String.ext this.2)

/-- The result of `addSlash` is empty or ends with a slash. -/
theorem addSlash_ends (p : String) : addSlash p = "" ∨ ∃ t : String, addSlash p = t ++ "/" := by
  by_cases hne : p = ""
  · left; subst hne; exact addSlash_empty
  · right
    by_cases hb : back p = '/'
    · rw [addSlash_of_back_eq p hb]; exact ends_slash_of_back p hne hb
    · exact ⟨p, addSlash_of_back_ne p hne hb⟩

/-- The helper `addSlash` never produces a second trailing slash of its own. -/
theorem addSlash_double (p : String) (h : ∃ t : String, addSlash p = t ++ "//") :
    ∃ t : String, p = t ++ "//" := by
  obtain ⟨t, ht⟩ := h
  by_cases hne : p = ""
  · subst hne
    rw [addSlash_empty] at ht
    exact ⟨t, ht⟩
  · by_cases hb : back p = '/'
    · rw [addSlash_of_back_eq p hb] at ht; exact ⟨t, ht⟩
    · exfalso
      rw [addSlash_of_back_ne p hne hb] at ht
      have hd := congrArg String.data ht
      have h2 : p.data ++ ['/'] = (t.data ++ ['/']) ++ ['/'] := by simpa using hd
      have h3 : p.data = t.data ++ ['/'] := List.append_cancel_right h2
      apply hb
      have : p = t ++ "/" := String.ext (by simpa using h3)
      rw [this]; exact back_append_slash t

theorem ends_iff_data (s u : String) : (∃ t : String, s = t ++ u) ↔ u.data <:+ s.data := by
  constructor
  · rintro ⟨t, rfl⟩
    exact ⟨t.data, by simp⟩
  · rintro ⟨l, hl⟩
    exact ⟨⟨l⟩, String.ext (by simpa using hl.symm)⟩

/-! ## URL synthesis -/

/-- The dropped `substr(1)` leaves `getCssUrl` as a guarded `addSlash` of the
plain concatenation. -/
theorem getCssUrl_eq (cfg : Config) (s : Silicon) :
    getCssUrl cfg s =
      if empty (getBaseUrl cfg s) && empty ((s.getKeyword? "_cssURL").getD cfg.cssUrl) then ""
      else addSlash (getBaseUrl cfg s ++ (s.getKeyword? "_cssURL").getD cfg.cssUrl) := by
  unfold getCssUrl
  cases s.getKeyword? "_cssURL" <;> simp

theorem getJsUrl_eq (cfg : Config) (s : Silicon) :
    getJsUrl cfg s =
      if empty (getBaseUrl cfg s) && empty ((s.getKeyword? "_jsURL").getD cfg.jsUrl) then ""
      else addSlash (getBaseUrl cfg s ++ (s.getKeyword? "_jsURL").getD cfg.jsUrl) := by
  unfold getJsUrl
  cases s.getKeyword? "_jsURL" <;> simp

theorem guarded_addSlash_ends (c : Bool) (p : String) :
    ((if c then "" else addSlash p) = "" ∨
      ∃ t : String, (if c then "" else addSlash p) = t ++ "/") := by
  cases c
  · simpa using addSlash_ends p
  · left; rfl

theorem guarded_addSlash_double (c : Bool) (p : String)
    (h : ∃ t : String, (if c then "" else addSlash p) = t ++ "//") :
    ∃ t : String, p = t ++ "//" := by
  cases c
  · exact addSlash_double p (by simpa using h)
  · obtain ⟨t, ht⟩ := h
    exact absurd ht.symm (append_ne_empty t "//" (by decide))

/-- C3, as stated, fails: with the path segments `css//` and `js//` and no base
URL, `getCssUrl` and `getJsUrl` return the segment unchanged, which is not
empty and ends with two slashes. -/
theorem getCssUrl_double_slash_counterexample :
    ¬ (getCssUrl cfgDefault ctxDoubleSlash = "" ∨
        ((∃ t : String, getCssUrl cfgDefault ctxDoubleSlash = t ++ "/") ∧
          ¬ ∃ t : String, getCssUrl cfgDefault ctxDoubleSlash = t ++ "//")) ∧
    ¬ (getJsUrl cfgDefault ctxDoubleSlash = "" ∨
        ((∃ t : String, getJsUrl cfgDefault ctxDoubleSlash = t ++ "/") ∧
          ¬ ∃ t : String, getJsUrl cfgDefault ctxDoubleSlash = t ++ "//")) := by
  simp only [ends_iff_data]
  decide

/-- C3, amended: for every context and configuration the results of `getCssUrl`
and `getJsUrl` are empty or end with a slash, and they end with two slashes
only when the concatenation of the base URL and the path segment already
does: `addSlash` adds no second slash. -/
theorem getCssUrl_getJsUrl_trailing_slash (cfg : Config) (s : Silicon) :
    (getCssUrl cfg s = "" ∨ ∃ t : String, getCssUrl cfg s = t ++ "/") ∧
    (getJsUrl cfg s = "" ∨ ∃ t : String, getJsUrl cfg s = t ++ "/") ∧
    ((¬ ∃ t : String,
        getBaseUrl cfg s ++ (s.getKeyword? "_cssURL").getD cfg.cssUrl = t ++ "//") →
      ¬ ∃ t : String, getCssUrl cfg s = t ++ "//") ∧
    ((¬ ∃ t : String,
        getBaseUrl cfg s ++ (s.getKeyword? "_jsURL").getD cfg.jsUrl = t ++ "//") →
      ¬ ∃ t : String, getJsUrl cfg s = t ++ "//") := by
  rw [getCssUrl_eq, getJsUrl_eq]
  exact ⟨guarded_addSlash_ends _ _, guarded_addSlash_ends _ _,
    fun h h2 => h (guarded_addSlash_double _ _ h2),
    fun h h2 => h (guarded_addSlash_double _ _ h2)⟩

/-- C3, amended, at base URL `http://x` with the segments `css` and `js`: the
results end with one slash and not with two. -/
theorem getCssUrl_getJsUrl_trailing_slash_witness :
    (¬ ∃ t : String, getCssUrl cfgDefault ctxPlainPaths = t ++ "//") ∧
    (¬ ∃ t : String, getJsUrl cfgDefault ctxPlainPaths = t ++ "//") ∧
    (∃ t : String, getCssUrl cfgDefault ctxPlainPaths = t ++ "/") ∧
    (∃ t : String, getJsUrl cfgDefault ctxPlainPaths = t ++ "/") :=
  have h := getCssUrl_getJsUrl_trailing_slash cfgDefault ctxPlainPaths
  ⟨h.2.2.1 (by rw [ends_iff_data]; decide), h.2.2.2 (by rw [ends_iff_data]; decide),
    h.1.resolve_left (by decide), h.2.1.resolve_left (by decide)⟩

/-- C4 at the base URL `http://x` with the segments `/css` and `/js`: the
leading slash stays, so the results hold `//`, where stripping it would give
`http://x/css/` and `http://x/js/`. -/
theorem getCssUrl_leading_slash_kept :
    getCssUrl cfgDefault ctxLeadingSlash = "http://x//css/" ∧
    addSlash (addSlash "http://x" ++ "css") = "http://x/css/" ∧
    getJsUrl cfgDefault ctxLeadingSlash = "http://x//js/" ∧
    addSlash (addSlash "http://x" ++ "js") = "http://x/js/" := by
  decide

/-! ## includeCss in immediate mode -/

theorem starts_iff_data (s u : String) : (∃ t : String, s = u ++ t) ↔ u.data <+: s.data := by
  constructor
  · rintro ⟨t, rfl⟩
    exact ⟨t.data, by simp⟩
  · rintro ⟨l, hl⟩
    exact ⟨⟨l⟩, String.ext (by simpa using hl.symm)⟩

theorem back_append (t u : String) (hu : u ≠ "") : back (t ++ u) = back u := by
  have hd : u.data ≠ [] := fun h => hu (String.ext h)
  unfold back
  simp [List.getLastD_eq_getLast?, List.getLast?_append_of_ne_nil _ hd]

theorem back_ne_of_not_ends (p : String) (hne : p ≠ "") (h : ¬ ∃ t : String, p = t ++ "/") :
    back p ≠ '/' :=
  fun hb => h (ends_slash_of_back p hne hb)

theorem addSlash_append_of_plain (t p : String) (hne : p ≠ "")
    (h : ¬ ∃ u : String, p = u ++ "/") : addSlash (t ++ p) = t ++ p ++ "/" := by
  apply addSlash_of_back_ne
  · exact append_ne_empty t p hne
  · rw [back_append t p hne]; exact back_ne_of_not_ends p hne h

theorem getBaseUrl_eq (cfg : Config) (s : Silicon) :
    getBaseUrl cfg s = addSlash ((s.getKeyword? "_baseURL").getD cfg.defaultUrl) := by
  unfold getBaseUrl
  cases s.getKeyword? "_baseURL" <;> rfl

/-- With a base URL and a path segment that are non-empty and end without a
slash, the CSS URL is `b/p/`. -/
theorem getCssUrl_of_plain (cfg : Config) (s : Silicon) (b p : String)
    (hb : (s.getKeyword? "_baseURL").getD cfg.defaultUrl = b)
    (hp : (s.getKeyword? "_cssURL").getD cfg.cssUrl = p)
    (hb1 : b ≠ "") (hb2 : ¬ ∃ t : String, b = t ++ "/")
    (hp1 : p ≠ "") (hp3 : ¬ ∃ t : String, p = t ++ "/") :
    getCssUrl cfg s = b ++ "/" ++ p ++ "/" := by
  have hbase : getBaseUrl cfg s = b ++ "/" := by
    rw [getBaseUrl_eq, hb]
    exact addSlash_of_back_ne b hb1 (back_ne_of_not_ends b hb1 hb2)
  have hpe : empty p = false := (empty_eq_false_iff p).2 hp1
  rw [getCssUrl_eq, hbase, hp, hpe]
  simpa using addSlash_append_of_plain (b ++ "/") p hp1 hp3

/-- C6: in immediate mode, with a non-empty base URL `b` that does not end in a
slash, a non-empty CSS path segment `p` that neither starts nor ends with a
slash, and a file name `f`, `includeCss` returns the link tag whose href is
`b/p/f`, with the `media` attribute before the closing ` />` when a `media`
argument is given, and leaves the context as it was. -/
theorem includeCss_immediate_fragment (cfg : Config) (s : Silicon) (args : StringMap)
    (input b p f : String)
    (hmode : getDoRender cfg s = true)
    (hb : (s.getKeyword? "_baseURL").getD cfg.defaultUrl = b)
    (hp : (s.getKeyword? "_cssURL").getD cfg.cssUrl = p)
    (hb1 : b ≠ "") (hb2 : ¬ ∃ t : String, b = t ++ "/")
    (hp1 : p ≠ "") (_hp2 : ¬ ∃ t : String, p = "/" ++ t) (hp3 : ¬ ∃ t : String, p = t ++ "/")
    (hf : find args "file" = some f) :
    (find args "media" = none →
      includeCss cfg s args input =
        some ("<link href=\"" ++ b ++ "/" ++ p ++ "/" ++ f
          ++ "\" rel=\"stylesheet\" type=\"text/css\"" ++ " />", s)) ∧
    (∀ m : String, find args "media" = some m →
      includeCss cfg s args input =
        some ("<link href=\"" ++ b ++ "/" ++ p ++ "/" ++ f
          ++ "\" rel=\"stylesheet\" type=\"text/css\"" ++ " media=\"" ++ m ++ "\"" ++ " />", s)) := by
  have hu := getCssUrl_of_plain cfg s b p hb hp hb1 hb2 hp1 hp3
  constructor
  · intro hm
    simp only [includeCss, hf, hm, hmode, hu, if_true, String.append_assoc]
  · intro m hm
    simp only [includeCss, hf, hm, hmode, hu, if_true, String.append_assoc]

/-- C6 at `_baseURL = http://cdn.example.com`, `_cssURL = assets/css`,
`file = app.css`, without and with `media = screen`. -/
theorem includeCss_immediate_fragment_witness :
    includeCss cfgDefault ctxCdn [("file", "app.css")] "" =
      some ("<link href=\"http://cdn.example.com/assets/css/app.css\" rel=\"stylesheet\" type=\"text/css\" />", ctxCdn) ∧
    includeCss cfgDefault ctxCdn [("file", "app.css"), ("media", "screen")] "" =
      some ("<link href=\"http://cdn.example.com/assets/css/app.css\" rel=\"stylesheet\" type=\"text/css\" media=\"screen\" />", ctxCdn) :=
  ⟨(includeCss_immediate_fragment cfgDefault ctxCdn [("file", "app.css")] ""
      "http://cdn.example.com" "assets/css" "app.css" (by decide) (by decide) (by decide)
      (by decide) (by rw [ends_iff_data]; decide) (by decide) (by rw [starts_iff_data]; decide)
      (by rw [ends_iff_data]; decide) (by decide)).1 (by decide),
   (includeCss_immediate_fragment cfgDefault ctxCdn [("file", "app.css"), ("media", "screen")] ""
      "http://cdn.example.com" "assets/css" "app.css" (by decide) (by decide) (by decide)
      (by decide) (by rw [ends_iff_data]; decide) (by decide) (by rw [starts_iff_data]; decide)
      (by rw [ends_iff_data]; decide) (by decide)).2 "screen" (by decide)⟩

/-! ## Buffered and immediate fragments agree -/

theorem getCssUrl_congr (cfg cfg' : Config) (s s' : Silicon)
    (hk : ∀ k : String, k ≠ "_renderResources" → s.keywords k = s'.keywords k)
    (h1 : cfg.defaultUrl = cfg'.defaultUrl) (h2 : cfg.cssUrl = cfg'.cssUrl) :
    getCssUrl cfg s = getCssUrl cfg' s' := by
  have hb : s.keywords "_baseURL" = s'.keywords "_baseURL" := hk _ (by decide)
  have hc : s.keywords "_cssURL" = s'.keywords "_cssURL" := hk _ (by decide)
  simp only [getCssUrl_eq, getBaseUrl_eq, Silicon.getKeyword?, hb, hc, h1, h2]

theorem getJsUrl_congr (cfg cfg' : Config) (s s' : Silicon)
    (hk : ∀ k : String, k ≠ "_renderResources" → s.keywords k = s'.keywords k)
    (h1 : cfg.defaultUrl = cfg'.defaultUrl) (h2 : cfg.jsUrl = cfg'.jsUrl) :
    getJsUrl cfg s = getJsUrl cfg' s' := by
  have hb : s.keywords "_baseURL" = s'.keywords "_baseURL" := hk _ (by decide)
  have hc : s.keywords "_jsURL" = s'.keywords "_jsURL" := hk _ (by decide)
  simp only [getJsUrl_eq, getBaseUrl_eq, Silicon.getKeyword?, hb, hc, h1, h2]

theorem getCollection_addToCollection_same (s : Silicon) (name : String) (r : StringMap) :
    (s.addToCollection name r).getCollection name = s.getCollection name ++ [r] := by
  simp [Silicon.addToCollection, Silicon.getCollection]

theorem getCollection_addToCollection_other (s : Silicon) (name n : String) (r : StringMap)
    (h : n ≠ name) : (s.addToCollection name r).getCollection n = s.getCollection n := by
  simp [Silicon.addToCollection, Silicon.getCollection, h]

/-- Where the buffered call is defined, its `code` is the immediate fragment:
take an immediate-mode and a buffered-mode context and configuration that agree
on every keyword but `_renderResources` and on the default URLs, and an argument
map with `file`. The immediate call returns a fragment and leaves its context
alone; every record the buffered `includeCss` call appends to `_CSS` carries
that fragment in `code` (and the call does append when `media` is given), and
the buffered `includeJs` call appends to `_JS` one record whose `code` is the
fragment the immediate `includeJs` call returns. -/
theorem include_code_eq_immediate (cfgI cfgB : Config) (sI sB : Silicon) (args : StringMap)
    (input f : String)
    (hf : find args "file" = some f)
    (hk : ∀ k : String, k ≠ "_renderResources" → sB.keywords k = sI.keywords k)
    (h1 : cfgB.defaultUrl = cfgI.defaultUrl) (h2 : cfgB.cssUrl = cfgI.cssUrl)
    (h3 : cfgB.jsUrl = cfgI.jsUrl)
    (hI : getDoRender cfgI sI = true) (hB : getDoRender cfgB sB = false) :
    (∃ css : String, includeCss cfgI sI args input = some (css, sI) ∧
      (∀ (ret : String) (s' : Silicon), includeCss cfgB sB args input = some (ret, s') →
        ∃ r : StringMap, s'.getCollection "_CSS" = sB.getCollection "_CSS" ++ [r] ∧
          find r "code" = some css) ∧
      (find args "media" ≠ none → (includeCss cfgB sB args input).isSome = true)) ∧
    (∃ js : String, includeJs cfgI sI args input = some (js, sI) ∧
      ∃ (s' : Silicon) (r : StringMap), includeJs cfgB sB args input = some ("", s') ∧
        s'.getCollection "_JS" = sB.getCollection "_JS" ++ [r] ∧ find r "code" = some js) := by
  have hc := getCssUrl_congr cfgB cfgI sB sI hk h1 h2
  have hj := getJsUrl_congr cfgB cfgI sB sI hk h1 h3
  constructor
  · cases hm : find args "media" with
    | none =>
      refine ⟨"<link href=\"" ++ getCssUrl cfgI sI ++ f
        ++ "\" rel=\"stylesheet\" type=\"text/css\"" ++ " />", ?_, ?_, ?_⟩
      · simp only [includeCss, hf, hm, hI, if_true]
      · intro ret s' h
        simp [includeCss, hf, hm, hB] at h
      · intro h; exact absurd rfl h
    | some m =>
      refine ⟨"<link href=\"" ++ getCssUrl cfgI sI ++ f
        ++ "\" rel=\"stylesheet\" type=\"text/css\"" ++ (" media=\"" ++ m ++ "\"") ++ " />",
        ?_, ?_, ?_⟩
      · simp only [includeCss, hf, hm, hI, if_true]
      · intro ret s' h
        simp only [includeCss, hf, hm, hB, Bool.false_eq_true, if_false, Option.some.injEq,
          Prod.mk.injEq] at h
        obtain ⟨-, rfl⟩ := h
        refine ⟨_, getCollection_addToCollection_same _ _ _, ?_⟩
        simp [find, List.lookup, hc]
      · intro _
        simp [includeCss, hf, hm, hB]
  · refine ⟨"<script type=\"text/javascript\" src=\"" ++ getJsUrl cfgI sI ++ f
      ++ "\" rel=\"stylesheet\"></script>", ?_, _,
      [("file", f), ("src", getJsUrl cfgB sB ++ f),
        ("code", "<script type=\"text/javascript\" src=\"" ++ getJsUrl cfgB sB ++ f
          ++ "\" rel=\"stylesheet\"></script>")],
      ?_, getCollection_addToCollection_same _ _ _, ?_⟩
    · simp only [includeJs, hf, hI, if_true]
    · simp only [includeJs, hf, hB, Bool.false_eq_true, if_false]
    · simp [find, List.lookup, hj]


/-- The agreement of the two modes at `file = a.css`, `media = screen`, with
`_renderResources` set to `1` and to `0`. -/
theorem include_code_eq_immediate_witness :
    (∃ css : String,
      includeCss cfgDefault ctxImmediate [("file", "a.css"), ("media", "screen")] "" =
        some (css, ctxImmediate) ∧
      (∀ (ret : String) (s' : Silicon),
        includeCss cfgDefault ctxBuffered [("file", "a.css"), ("media", "screen")] "" =
          some (ret, s') →
        ∃ r : StringMap, s'.getCollection "_CSS" = ctxBuffered.getCollection "_CSS" ++ [r] ∧
          find r "code" = some css) ∧
      (find [("file", "a.css"), ("media", "screen")] "media" ≠ none →
        (includeCss cfgDefault ctxBuffered [("file", "a.css"), ("media", "screen")] "").isSome
          = true)) ∧
    (∃ js : String,
      includeJs cfgDefault ctxImmediate [("file", "a.css"), ("media", "screen")] "" =
        some (js, ctxImmediate) ∧
      ∃ (s' : Silicon) (r : StringMap),
        includeJs cfgDefault ctxBuffered [("file", "a.css"), ("media", "screen")] "" =
          some ("", s') ∧
        s'.getCollection "_JS" = ctxBuffered.getCollection "_JS" ++ [r] ∧
        find r "code" = some js) :=
  include_code_eq_immediate cfgDefault cfgDefault ctxImmediate ctxBuffered
    [("file", "a.css"), ("media", "screen")] "" "a.css" (by decide)
    (fun k hk => by
      have hne : (k == "_renderResources") = false := by simpa using hk
      simp [ctxBuffered, ctxImmediate, contextOf, List.lookup, hne])
    rfl rfl rfl (by decide) (by decide)

/-- C1 with `file = a.css` and no `media`, in two contexts that differ only in
`_renderResources` (`1` and `0`): the immediate `includeCss` call returns the
link tag, while the buffered call reads `media->second` at `args.end()` and is
undefined, so `_CSS` receives no record whose `code` is that tag; `includeJs`
on the same input does append the record whose `code` is its immediate
fragment. -/
theorem include_code_undefined_without_media :
    getDoRender cfgDefault ctxImmediate = true ∧
    getDoRender cfgDefault ctxBuffered = false ∧
    (∀ k : String, k ≠ "_renderResources" →
      ctxBuffered.keywords k = ctxImmediate.keywords k) ∧
    find [("file", "a.css")] "file" = some "a.css" ∧
    includeCss cfgDefault ctxImmediate [("file", "a.css")] "" =
      some ("<link href=\"a.css\" rel=\"stylesheet\" type=\"text/css\" />", ctxImmediate) ∧
    includeCss cfgDefault ctxBuffered [("file", "a.css")] "" = none ∧
    includeJs cfgDefault ctxImmediate [("file", "a.css")] "" =
      some ("<script type=\"text/javascript\" src=\"a.css\" rel=\"stylesheet\"></script>",
        ctxImmediate) ∧
    includeJs cfgDefault ctxBuffered [("file", "a.css")] "" =
      some ("", ctxBuffered.addToCollection "_JS"
        [("file", "a.css"), ("src", "a.css"),
          ("code",
            "<script type=\"text/javascript\" src=\"a.css\" rel=\"stylesheet\"></script>")]) := by
  refine ⟨by decide, by decide, ?_, by decide, rfl, rfl, rfl, rfl⟩
  intro k hk
  have hne : (k == "_renderResources") = false := by simpa using hk
  simp [ctxBuffered, ctxImmediate, contextOf, List.lookup, hne]

/-! ## Render mode, missing arguments and rendering -/

theorem getDoRender_of_zero (cfg : Config) (s : Silicon)
    (h : s.getKeyword? "_renderResources" = some "0") : getDoRender cfg s = false := by
  simp [getDoRender, Silicon.getKeyword, h, empty]

theorem getDoRender_of_other (cfg : Config) (s : Silicon) (v : String)
    (h : s.getKeyword? "_renderResources" = some v) (h1 : v ≠ "") (h2 : v ≠ "0") :
    getDoRender cfg s = true := by
  have he : empty v = false := (empty_eq_false_iff v).2 h1
  simp [getDoRender, Silicon.getKeyword, h, he, h2]

theorem getDoRender_of_absent (cfg : Config) (s : Silicon)
    (h : s.getKeyword? "_renderResources" = none) : getDoRender cfg s = cfg.renderDefault := by
  simp [getDoRender, Silicon.getKeyword, h, empty]

/-- C2, as stated, fails: with `_renderResources` set to `1`, a non-empty value
other than `0`, `getDoRender` returns `true`, and `includeCss` with a `file`
argument returns the link tag, not the empty string, and buffers nothing in
`_CSS`. -/
theorem getDoRender_polarity_counterexample :
    ctxImmediate.getKeyword? "_renderResources" = some "1" ∧
    getDoRender cfgDefault ctxImmediate = true ∧
    includeCss cfgDefault ctxImmediate [("file", "a.css")] "" =
      some ("<link href=\"a.css\" rel=\"stylesheet\" type=\"text/css\" />", ctxImmediate) ∧
    (includeCss cfgDefault ctxImmediate [("file", "a.css")] "").map Prod.fst ≠ some "" ∧
    (includeCss cfgDefault ctxImmediate [("file", "a.css")] "").map
      (fun r => r.2.getCollection "_CSS") = some [] :=
  ⟨by decide, by decide, rfl, by decide, by decide⟩

/-- C2, amended: `getDoRender` returns `false` when `_renderResources` is `0`,
`true` when it is any other non-empty value, and the process-wide default when
the keyword is absent. So with a `file` argument `includeCss` returns a non-empty
fragment and leaves the context as it was when the keyword is a non-empty value
other than `0`, and it returns the empty string and appends a record to `_CSS`
when the keyword is `0` and a `media` argument is given. -/
theorem getDoRender_polarity (cfg : Config) (s : Silicon) (args : StringMap) (input f : String)
    (hf : find args "file" = some f) :
    (s.getKeyword? "_renderResources" = some "0" → getDoRender cfg s = false) ∧
    (∀ v : String, s.getKeyword? "_renderResources" = some v → v ≠ "" → v ≠ "0" →
      getDoRender cfg s = true) ∧
    (s.getKeyword? "_renderResources" = none → getDoRender cfg s = cfg.renderDefault) ∧
    (∀ v : String, s.getKeyword? "_renderResources" = some v → v ≠ "" → v ≠ "0" →
      ∃ frag : String, frag ≠ "" ∧ includeCss cfg s args input = some (frag, s)) ∧
    (∀ m : String, s.getKeyword? "_renderResources" = some "0" → find args "media" = some m →
      ∃ r : StringMap, includeCss cfg s args input = some ("", s.addToCollection "_CSS" r)) := by
  refine ⟨getDoRender_of_zero cfg s, getDoRender_of_other cfg s, getDoRender_of_absent cfg s,
    ?_, ?_⟩
  · intro v hv h1 h2
    have hm := getDoRender_of_other cfg s v hv h1 h2
    cases hmed : find args "media" with
    | none =>
      refine ⟨"<link href=\"" ++ getCssUrl cfg s ++ f
        ++ "\" rel=\"stylesheet\" type=\"text/css\"" ++ " />", ?_, ?_⟩
      · exact append_ne_empty _ _ (by decide)
      · simp only [includeCss, hf, hmed, hm, if_true]
    | some m =>
      refine ⟨"<link href=\"" ++ getCssUrl cfg s ++ f
        ++ "\" rel=\"stylesheet\" type=\"text/css\"" ++ (" media=\"" ++ m ++ "\"") ++ " />",
        ?_, ?_⟩
      · exact append_ne_empty _ _ (by decide)
      · simp only [includeCss, hf, hmed, hm, if_true]
  · intro m hz hmed
    have hm := getDoRender_of_zero cfg s hz
    refine ⟨[("file", f), ("href", getCssUrl cfg s ++ f), ("media", m),
      ("code", "<link href=\"" ++ getCssUrl cfg s ++ f
        ++ "\" rel=\"stylesheet\" type=\"text/css\"" ++ (" media=\"" ++ m ++ "\"") ++ " />")],
      ?_⟩
    simp only [includeCss, hf, hmed, hm, Bool.false_eq_true, if_false]

/-- C2, amended, at `_renderResources` set to `1`, set to `0` and absent. -/
theorem getDoRender_polarity_witness :
    getDoRender cfgDefault ctxImmediate = true ∧
    getDoRender cfgDefault ctxBuffered = false ∧
    getDoRender cfgDefault ctxNone = cfgDefault.renderDefault ∧
    (∃ frag : String, frag ≠ "" ∧
      includeCss cfgDefault ctxImmediate [("file", "a.css")] "" = some (frag, ctxImmediate)) ∧
    (∃ r : StringMap,
      includeCss cfgDefault ctxBuffered [("file", "a.css"), ("media", "screen")] "" =
        some ("", ctxBuffered.addToCollection "_CSS" r)) :=
  ⟨(getDoRender_polarity cfgDefault ctxImmediate [("file", "a.css")] "" "a.css"
      (by decide)).2.1 "1" (by decide) (by decide) (by decide),
   (getDoRender_polarity cfgDefault ctxBuffered [("file", "a.css")] "" "a.css"
      (by decide)).1 (by decide),
   (getDoRender_polarity cfgDefault ctxNone [("file", "a.css")] "" "a.css"
      (by decide)).2.2.1 (by decide),
   (getDoRender_polarity cfgDefault ctxImmediate [("file", "a.css")] "" "a.css"
      (by decide)).2.2.2.1 "1" (by decide) (by decide) (by decide),
   (getDoRender_polarity cfgDefault ctxBuffered [("file", "a.css"), ("media", "screen")] ""
      "a.css" (by decide)).2.2.2.2 "screen" (by decide) (by decide)⟩

/-- C5: without a `file` argument `includeCss` and `includeJs` return the empty
string and the context they were given, whatever the configuration, the
context, the body and the other arguments. -/
theorem include_without_file (cfg : Config) (s : Silicon) (args : StringMap) (input : String)
    (h : find args "file" = none) :
    includeCss cfg s args input = some ("", s) ∧ includeJs cfg s args input = some ("", s) := by
  simp [includeCss, includeJs, h]

/-- C5 in a buffering context, with a `media` argument and a body but no `file`. -/
theorem include_without_file_witness :
    includeCss cfgDefault ctxBuffered [("media", "screen")] "body" = some ("", ctxBuffered) ∧
    includeJs cfgDefault ctxBuffered [("media", "screen")] "body" = some ("", ctxBuffered) :=
  include_without_file cfgDefault ctxBuffered [("media", "screen")] "body" (by decide)

/-- C7 in a buffering context with `file = a.css` and no `media`: the record
literal reads `media->second` at `args.end()`, so the call is undefined and no
record is appended; with `media = screen` the same call appends the record. -/
theorem includeCss_buffered_without_media :
    getDoRender cfgDefault ctxBuffered = false ∧
    includeCss cfgDefault ctxBuffered [("file", "a.css")] "" = none ∧
    includeCss cfgDefault ctxBuffered [("file", "a.css"), ("media", "screen")] "" =
      some ("", ctxBuffered.addToCollection "_CSS"
        [("file", "a.css"), ("href", "a.css"), ("media", "screen"),
          ("code", "<link href=\"a.css\" rel=\"stylesheet\" type=\"text/css\" media=\"screen\" />")]) :=
  ⟨by decide, rfl, rfl⟩

/-- C8 from a buffering context with an empty `_CSS`: the calls
`includeCss(file=a.css)`, `includeCss(file=b.css)` are undefined at the first
one, so `renderCss(comments=1)` is never reached; with a `media` argument on
both calls the rendering is the start comment, the two link tags in call order
and the end comment. -/
theorem includeCss_then_renderCss_scenario :
    ctxBuffered.getCollection "_CSS" = [] ∧
    ((includeCssAll cfgDefault ctxBuffered [[("file", "a.css")], [("file", "b.css")]]).bind
      fun s => renderCss cfgDefault s [("comments", "1")] "") = none ∧
    ((includeCssAll cfgDefault ctxBuffered
        [[("file", "a.css"), ("media", "all")], [("file", "b.css"), ("media", "all")]]).bind
      fun s => (renderCss cfgDefault s [("comments", "1")] "").map Prod.fst) =
      some ("<!-- Start styles -->\n"
        ++ "<link href=\"a.css\" rel=\"stylesheet\" type=\"text/css\" media=\"all\" />\n"
        ++ "<link href=\"b.css\" rel=\"stylesheet\" type=\"text/css\" media=\"all\" />\n"
        ++ "<!-- End styles -->\n") :=
  ⟨by decide, rfl, rfl⟩

/-- C9, as stated, fails: with `_JS` and `_directJS` both empty and
`comments = 1`, `renderJs` returns the two comment lines, not the empty
string. -/
theorem renderJs_empty_counterexample :
    ctxNone.getCollection "_JS" = [] ∧ ctxNone.getCollection "_directJS" = [] ∧
    renderJs cfgDefault ctxNone [("comments", "1")] "" =
      some ("<!-- Start scripts -->\n<!-- End scripts -->\n", ctxNone) ∧
    (renderJs cfgDefault ctxNone [("comments", "1")] "").map Prod.fst ≠ some "" :=
  ⟨rfl, rfl, rfl, by decide⟩

/-- C9, amended: with `_JS` and `_directJS` both empty, whatever the `files`
and `direct` flags, `renderJs` returns the empty string when `comments` is
absent or `0`, and the start and end comment lines with nothing between them
when `comments` is present and not `0`; the context is left as it was. -/
theorem renderJs_empty (cfg : Config) (s : Silicon) (args : StringMap) (input : String)
    (hjs : s.getCollection "_JS" = []) (hd : s.getCollection "_directJS" = []) :
    ((find args "comments" = none ∨ find args "comments" = some "0") →
      renderJs cfg s args input = some ("", s)) ∧
    (∀ c : String, find args "comments" = some c → c ≠ "0" →
      renderJs cfg s args input = some ("<!-- Start scripts -->\n<!-- End scripts -->\n", s)) := by
  constructor
  · rintro (h | h)
    · cases hf : find args "files" <;> cases hdi : find args "direct" <;>
        simp [renderJs, h, hjs, hd, hf, hdi, appendCodes]
    · cases hf : find args "files" <;> cases hdi : find args "direct" <;>
        simp [renderJs, h, hjs, hd, hf, hdi, appendCodes]
  · intro c h hc
    cases hf : find args "files" <;> cases hdi : find args "direct" <;>
      simp [renderJs, h, hc, hjs, hd, hf, hdi, appendCodes]

/-- C9, amended, on a context without collection entries, with `comments = 0`
and with `comments = 1`. -/
theorem renderJs_empty_witness :
    renderJs cfgDefault ctxNone [("comments", "0"), ("files", "1")] "" = some ("", ctxNone) ∧
    renderJs cfgDefault ctxNone [("comments", "1"), ("direct", "0")] "" =
      some ("<!-- Start scripts -->\n<!-- End scripts -->\n", ctxNone) :=
  ⟨(renderJs_empty cfgDefault ctxNone [("comments", "0"), ("files", "1")] "" rfl rfl).1
      (Or.inr (by decide)),
   (renderJs_empty cfgDefault ctxNone [("comments", "1"), ("direct", "0")] "" rfl rfl).2 "1"
      (by decide) (by decide)⟩

/-- C10: with `_CSS` empty, `renderCss` returns the empty string for every
argument map, and leaves the context as it was. -/
theorem renderCss_empty (cfg : Config) (s : Silicon) (args : StringMap) (input : String)
    (h : s.getCollection "_CSS" = []) : renderCss cfg s args input = some ("", s) := by
  simp [renderCss, h]

/-- C10 with `comments = 1` on a context without collection entries. -/
theorem renderCss_empty_witness :
    renderCss cfgDefault ctxNone [("comments", "1")] "" = some ("", ctxNone) :=
  renderCss_empty cfgDefault ctxNone [("comments", "1")] "" rfl

/-! ## directJs, the base URL and includeJs -/

theorem addToCollection_keywords (s : Silicon) (name : String) (r : StringMap) :
    (s.addToCollection name r).keywords = s.keywords := rfl

/-- C11: `directJs` always returns the empty string. With an empty body it
returns the context it was given; with a non-empty body it appends the one
record `code = body` at the end of `_directJS` and changes no other collection
and no keyword, whatever the arguments and the render mode. -/
theorem directJs_appends (cfg : Config) (s : Silicon) (args : StringMap) (input : String) :
    (directJs cfg s args input).map Prod.fst = some "" ∧
    (input = "" → directJs cfg s args input = some ("", s)) ∧
    (input ≠ "" → ∃ s' : Silicon, directJs cfg s args input = some ("", s') ∧
      s'.getCollection "_directJS" = s.getCollection "_directJS" ++ [[("code", input)]] ∧
      (∀ n : String, n ≠ "_directJS" → s'.getCollection n = s.getCollection n) ∧
      s'.keywords = s.keywords) := by
  refine ⟨?_, ?_, ?_⟩
  · unfold directJs
    cases empty input <;> rfl
  · intro h
    have he : empty input = true := (empty_eq_true_iff input).2 h
    simp [directJs, he]
  · intro h
    have he : empty input = false := (empty_eq_false_iff input).2 h
    refine ⟨s.addToCollection "_directJS" [("code", input)], ?_,
      getCollection_addToCollection_same _ _ _,
      fun n hn => getCollection_addToCollection_other _ _ _ _ hn, rfl⟩
    simp [directJs, he]

/-- C11 with an empty body and with the body `alert(1);`, in a context that
renders immediately. -/
theorem directJs_appends_witness :
    directJs cfgDefault ctxImmediate [] "" = some ("", ctxImmediate) ∧
    ∃ s' : Silicon, directJs cfgDefault ctxImmediate [] "alert(1);" = some ("", s') ∧
      s'.getCollection "_directJS" =
        ctxImmediate.getCollection "_directJS" ++ [[("code", "alert(1);")]] ∧
      (∀ n : String, n ≠ "_directJS" → s'.getCollection n = ctxImmediate.getCollection n) ∧
      s'.keywords = ctxImmediate.keywords :=
  ⟨(directJs_appends cfgDefault ctxImmediate [] "").2.1 rfl,
   (directJs_appends cfgDefault ctxImmediate [] "alert(1);").2.2 (by decide)⟩

theorem addSlash_of_ends (v : String) (h : v = "" ∨ ∃ t : String, v = t ++ "/") :
    addSlash v = v := by
  rcases h with h | ⟨t, h⟩
  · subst h; exact addSlash_empty
  · subst h; exact addSlash_of_back_eq _ (back_append_slash t)

/-- C14: let `v` be the value of `_baseURL` when the keyword is set (the empty
string included), and the process-wide default otherwise. `getBaseUrl` returns
`v` followed by a slash when `v` is non-empty and does not end with a slash,
and `v` unchanged when it is empty or ends with a slash. -/
theorem getBaseUrl_resolution (cfg : Config) (s : Silicon) (v : String)
    (hv : s.getKeyword? "_baseURL" = some v ∨
      (s.getKeyword? "_baseURL" = none ∧ cfg.defaultUrl = v)) :
    (v ≠ "" → (¬ ∃ t : String, v = t ++ "/") → getBaseUrl cfg s = v ++ "/") ∧
    ((v = "" ∨ ∃ t : String, v = t ++ "/") → getBaseUrl cfg s = v) := by
  have hg : getBaseUrl cfg s = addSlash v := by
    rcases hv with h | ⟨h, hd⟩
    · simp [getBaseUrl, h]
    · simp [getBaseUrl, h, hd]
  rw [hg]
  exact ⟨fun h1 h2 => addSlash_of_back_ne v h1 (back_ne_of_not_ends v h1 h2), addSlash_of_ends v⟩

/-- C14 with the default `http://d`: `_baseURL` set to the empty string gives the
empty string, an absent keyword gives `http://d/`, and a set keyword gives its
own value with a slash. -/
theorem getBaseUrl_resolution_witness :
    getBaseUrl cfgWithDefaults ctxEmptyBase = "" ∧
    getBaseUrl cfgWithDefaults ctxNone = "http://d" ++ "/" ∧
    getBaseUrl cfgWithDefaults ctxCdn = "http://cdn.example.com" ++ "/" :=
  ⟨(getBaseUrl_resolution cfgWithDefaults ctxEmptyBase "" (Or.inl (by decide))).2 (Or.inl rfl),
   (getBaseUrl_resolution cfgWithDefaults ctxNone "http://d" (Or.inr ⟨by decide, rfl⟩)).1
      (by decide) (by rw [ends_iff_data]; decide),
   (getBaseUrl_resolution cfgWithDefaults ctxCdn "http://cdn.example.com"
      (Or.inl (by decide))).1 (by decide) (by rw [ends_iff_data]; decide)⟩

/-- C15: with `file = f`, `includeJs` in immediate mode returns the script tag
whose `src` is `getJsUrl` followed by `f` and the context it was given; in
buffered mode it returns the empty string and appends the one record with
`file`, `src` and `code` (that tag) at the end of `_JS`, changing no other
collection and no keyword. -/
theorem includeJs_modes (cfg : Config) (s : Silicon) (args : StringMap) (input f : String)
    (hf : find args "file" = some f) :
    (getDoRender cfg s = true →
      includeJs cfg s args input =
        some ("<script type=\"text/javascript\" src=\"" ++ getJsUrl cfg s ++ f
          ++ "\" rel=\"stylesheet\"></script>", s)) ∧
    (getDoRender cfg s = false →
      ∃ s' : Silicon, includeJs cfg s args input = some ("", s') ∧
        s'.getCollection "_JS" = s.getCollection "_JS" ++
          [[("file", f), ("src", getJsUrl cfg s ++ f),
            ("code", "<script type=\"text/javascript\" src=\"" ++ getJsUrl cfg s ++ f
              ++ "\" rel=\"stylesheet\"></script>")]] ∧
        (∀ n : String, n ≠ "_JS" → s'.getCollection n = s.getCollection n) ∧
        s'.keywords = s.keywords) := by
  constructor
  · intro h
    simp only [includeJs, hf, h, if_true]
  · intro h
    refine ⟨_, ?_, getCollection_addToCollection_same _ _ _,
      fun n hn => getCollection_addToCollection_other _ _ _ _ hn, rfl⟩
    simp only [includeJs, hf, h, Bool.false_eq_true, if_false]

/-- C15 with `file = app.js`, in an immediate and in a buffering context. -/
theorem includeJs_modes_witness :
    includeJs cfgDefault ctxImmediate [("file", "app.js")] "" =
      some ("<script type=\"text/javascript\" src=\"app.js\" rel=\"stylesheet\"></script>",
        ctxImmediate) ∧
    ∃ s' : Silicon, includeJs cfgDefault ctxBuffered [("file", "app.js")] "" = some ("", s') ∧
      s'.getCollection "_JS" = ctxBuffered.getCollection "_JS" ++
        [[("file", "app.js"), ("src", "app.js"),
          ("code", "<script type=\"text/javascript\" src=\"app.js\" rel=\"stylesheet\"></script>")]] ∧
      (∀ n : String, n ≠ "_JS" → s'.getCollection n = ctxBuffered.getCollection n) ∧
      s'.keywords = ctxBuffered.keywords :=
  ⟨(includeJs_modes cfgDefault ctxImmediate [("file", "app.js")] "" "app.js" (by decide)).1
      (by decide),
   (includeJs_modes cfgDefault ctxBuffered [("file", "app.js")] "" "app.js" (by decide)).2
      (by decide)⟩

/-! ## Empty URLs and the render keyword -/


theorem addSlash_eq_empty_iff (v : String) : addSlash v = "" ↔ v = "" := by
  constructor
  · intro h
    by_contra hne
    by_cases hb : back v = '/'
    · rw [addSlash_of_back_eq v hb] at h; exact hne h
    · rw [addSlash_of_back_ne v hne hb] at h
      exact append_ne_empty v "/" (by decide) h
  · intro h; subst h; exact addSlash_empty

theorem addSlash_idem (v : String) : addSlash (addSlash v) = addSlash v :=
  addSlash_of_ends _ (addSlash_ends v)

theorem append_eq_empty_iff (t u : String) : t ++ u = "" ↔ t = "" ∧ u = "" := by
  constructor
  · intro h
    have hd := congrArg String.data h
    simp at hd
    exact ⟨String.ext hd.1, String.ext hd.2⟩
  · rintro ⟨rfl, rfl⟩; rfl

theorem guarded_addSlash_eq_empty_iff (b p : String) :
    (if empty (addSlash b) && empty p then "" else addSlash (addSlash b ++ p)) = "" ↔
      (b = "" ∧ p = "") := by
  constructor
  · intro h
    by_cases hc : (empty (addSlash b) && empty p) = true
    · simp only [Bool.and_eq_true, empty_eq_true_iff, addSlash_eq_empty_iff] at hc
      exact hc
    · rw [if_neg hc, addSlash_eq_empty_iff, append_eq_empty_iff, addSlash_eq_empty_iff] at h
      exact h
  · rintro ⟨rfl, rfl⟩
    rfl

theorem guarded_addSlash_of_empty_segment (b : String) (hb : b ≠ "") :
    (if empty (addSlash b) && empty "" then "" else addSlash (addSlash b ++ "")) = addSlash b := by
  have h1 : empty (addSlash b) = false :=
    (empty_eq_false_iff _).2 (fun h => hb ((addSlash_eq_empty_iff b).1 h))
  simp [h1, addSlash_idem]

/-- C17: with `b`, `p` and `q` the resolved base URL, CSS segment and JS
segment, `getCssUrl` (resp. `getJsUrl`) returns the empty string exactly when
`b` and `p` (resp. `q`) are both empty, and then the href or src is the bare
file name; with `b` non-empty and an empty segment the result is `b` with its
trailing slash. -/
theorem url_empty_iff (cfg : Config) (s : Silicon) (b p q : String)
    (hb : (s.getKeyword? "_baseURL").getD cfg.defaultUrl = b)
    (hp : (s.getKeyword? "_cssURL").getD cfg.cssUrl = p)
    (hq : (s.getKeyword? "_jsURL").getD cfg.jsUrl = q) :
    (getCssUrl cfg s = "" ↔ (b = "" ∧ p = "")) ∧
    (getJsUrl cfg s = "" ↔ (b = "" ∧ q = "")) ∧
    (b = "" → p = "" → ∀ f : String, getCssUrl cfg s ++ f = f) ∧
    (b = "" → q = "" → ∀ f : String, getJsUrl cfg s ++ f = f) ∧
    (b ≠ "" → p = "" →
      getCssUrl cfg s = addSlash b ∧ ∃ t : String, getCssUrl cfg s = t ++ "/") ∧
    (b ≠ "" → q = "" →
      getJsUrl cfg s = addSlash b ∧ ∃ t : String, getJsUrl cfg s = t ++ "/") := by
  have hc : getCssUrl cfg s = "" ↔ (b = "" ∧ p = "") := by
    rw [getCssUrl_eq, getBaseUrl_eq, hb, hp]; exact guarded_addSlash_eq_empty_iff b p
  have hj : getJsUrl cfg s = "" ↔ (b = "" ∧ q = "") := by
    rw [getJsUrl_eq, getBaseUrl_eq, hb, hq]; exact guarded_addSlash_eq_empty_iff b q
  have hends : b ≠ "" → ∃ t : String, addSlash b = t ++ "/" := fun h =>
    (addSlash_ends b).resolve_left (fun h2 => h ((addSlash_eq_empty_iff b).1 h2))
  refine ⟨hc, hj, ?_, ?_, ?_, ?_⟩
  · intro h1 h2 f
    rw [hc.2 ⟨h1, h2⟩]; exact String.ext (by simp)
  · intro h1 h2 f
    rw [hj.2 ⟨h1, h2⟩]; exact String.ext (by simp)
  · intro h1 h2
    have h3 : getCssUrl cfg s = addSlash b := by
      rw [getCssUrl_eq, getBaseUrl_eq, hb, hp, h2]
      exact guarded_addSlash_of_empty_segment b h1
    exact ⟨h3, h3 ▸ hends h1⟩
  · intro h1 h2
    have h3 : getJsUrl cfg s = addSlash b := by
      rw [getJsUrl_eq, getBaseUrl_eq, hb, hq, h2]
      exact guarded_addSlash_of_empty_segment b h1
    exact ⟨h3, h3 ▸ hends h1⟩

/-- C17 with nothing configured, with the base URL `http://x` alone, and with
the base URL and both segments. -/
theorem url_empty_iff_witness :
    getCssUrl cfgDefault ctxNone = "" ∧ getJsUrl cfgDefault ctxNone = "" ∧
    getCssUrl cfgDefault ctxNone ++ "app.css" = "app.css" ∧
    getJsUrl cfgDefault ctxNone ++ "app.js" = "app.js" ∧
    getCssUrl cfgDefault ctxBaseOnly = addSlash "http://x" ∧
    getJsUrl cfgDefault ctxBaseOnly = addSlash "http://x" ∧
    getCssUrl cfgDefault ctxPlainPaths ≠ "" :=
  have h0 := url_empty_iff cfgDefault ctxNone "" "" "" rfl rfl rfl
  have h1 := url_empty_iff cfgDefault ctxBaseOnly "http://x" "" "" rfl rfl rfl
  have h2 := url_empty_iff cfgDefault ctxPlainPaths "http://x" "css" "js" rfl rfl rfl
  ⟨h0.1.2 ⟨rfl, rfl⟩, h0.2.1.2 ⟨rfl, rfl⟩, h0.2.2.1 rfl rfl "app.css", h0.2.2.2.1 rfl rfl "app.js",
    (h1.2.2.2.2.1 (by decide) rfl).1, (h1.2.2.2.2.2 (by decide) rfl).1,
    fun h => absurd (h2.1.1 h).1 (by decide)⟩

theorem getDoRender_of_empty (cfg : Config) (s : Silicon)
    (h : s.getKeyword? "_renderResources" = some "") : getDoRender cfg s = cfg.renderDefault := by
  simp [getDoRender, Silicon.getKeyword, h, empty]

/-- C18: `getDoRender` returns `false` when `_renderResources` is `0`, `true`
when it is any other non-empty value, and the process-wide `_renderDefault`
when the keyword is absent or its value is the empty string. -/
theorem getDoRender_by_keyword (cfg : Config) (s : Silicon) :
    (s.getKeyword? "_renderResources" = some "0" → getDoRender cfg s = false) ∧
    (∀ v : String, s.getKeyword? "_renderResources" = some v → v ≠ "" → v ≠ "0" →
      getDoRender cfg s = true) ∧
    ((s.getKeyword? "_renderResources" = none ∨ s.getKeyword? "_renderResources" = some "") →
      getDoRender cfg s = cfg.renderDefault) :=
  ⟨getDoRender_of_zero cfg s, getDoRender_of_other cfg s,
    fun h => h.elim (getDoRender_of_absent cfg s) (getDoRender_of_empty cfg s)⟩

/-- C18 at the values `0`, `1`, `false`, absent and empty. -/
theorem getDoRender_by_keyword_witness :
    getDoRender cfgWithDefaults ctxBuffered = false ∧
    getDoRender cfgWithDefaults ctxImmediate = true ∧
    getDoRender cfgWithDefaults (contextOf [("_renderResources", "false")]) = true ∧
    getDoRender cfgWithDefaults ctxNone = false ∧
    getDoRender cfgDefault (contextOf [("_renderResources", "")]) = true :=
  ⟨(getDoRender_by_keyword cfgWithDefaults ctxBuffered).1 (by decide),
   (getDoRender_by_keyword cfgWithDefaults ctxImmediate).2.1 "1" (by decide) (by decide)
      (by decide),
   (getDoRender_by_keyword cfgWithDefaults (contextOf [("_renderResources", "false")])).2.1
      "false" (by decide) (by decide) (by decide),
   (getDoRender_by_keyword cfgWithDefaults ctxNone).2.2 (Or.inl (by decide)),
   (getDoRender_by_keyword cfgDefault (contextOf [("_renderResources", "")])).2.2
      (Or.inr (by decide))⟩

/-! ## Rendering the buffered records -/

theorem join_cons (a : String) (l : List String) : String.join (a :: l) = a ++ String.join l := by
  apply String.ext
  simp [String.join_eq]

theorem empty_append (t : String) : "" ++ t = t := String.ext (by simp)

/-- The loop adds every code followed by a newline, in order. -/
theorem appendCodes_eq (l : List StringMap) :
    ∀ (codes : List String) (out : String),
      l.map (fun r => find r "code") = codes.map some →
      appendCodes out l = some (out ++ String.join (codes.map fun c => c ++ "\n")) := by
  induction l with
  | nil =>
    intro codes out h
    cases codes with
    | nil => exact congrArg some (String.ext (by simp [String.join_eq]))
    | cons c cs => simp at h
  | cons r rest ih =>
    intro codes out h
    cases codes with
    | nil => simp at h
    | cons c cs =>
      simp only [List.map_cons, List.cons.injEq] at h
      simp only [appendCodes, h.1, List.map_cons, join_cons]
      rw [ih cs _ h.2, String.append_assoc]

/-- The loop is defined when every record has a `code` field. -/
theorem appendCodes_isSome (l : List StringMap) :
    ∀ out : String, (∀ r ∈ l, find r "code" ≠ none) → (appendCodes out l).isSome = true := by
  induction l with
  | nil => intro out _; rfl
  | cons r rest ih =>
    intro out h
    have h1 := h r (List.mem_cons_self _ _)
    cases hc : find r "code" with
    | none => exact absurd hc h1
    | some c =>
      simp only [appendCodes, hc]
      exact ih _ (fun r' hr' => h r' (List.mem_cons_of_mem _ hr'))

theorem appendCodes_ne_none (l : List StringMap) (out : String)
    (h : ∀ r ∈ l, find r "code" ≠ none) : appendCodes out l ≠ none := by
  intro hn
  have := appendCodes_isSome l out h
  rw [hn] at this
  exact absurd this (by decide)

theorem renderCss_snd (cfg : Config) (s : Silicon) (args : StringMap) (input : String)
    (r : String × Silicon) (h : renderCss cfg s args input = some r) : r.2 = s := by
  unfold renderCss at h
  simp only at h
  split at h
  · cases h; rfl
  · split at h
    · cases h
    · cases h; rfl

theorem renderJs_snd (cfg : Config) (s : Silicon) (args : StringMap) (input : String)
    (r : String × Silicon) (h : renderJs cfg s args input = some r) : r.2 = s := by
  unfold renderJs at h
  simp only at h
  split at h
  · cases h
  · split at h
    · cases h
    · cases h; rfl

theorem renderCss_isSome (cfg : Config) (s : Silicon) (args : StringMap) (input : String)
    (h : ∀ r ∈ s.getCollection "_CSS", find r "code" ≠ none) :
    (renderCss cfg s args input).isSome = true := by
  unfold renderCss
  simp only
  split
  · rfl
  · split
    · rename_i heq
      exact absurd heq (appendCodes_ne_none _ _ h)
    · rfl

theorem renderJs_isSome (cfg : Config) (s : Silicon) (args : StringMap) (input : String)
    (hJ : ∀ r ∈ s.getCollection "_JS", find r "code" ≠ none)
    (hD : ∀ r ∈ s.getCollection "_directJS", find r "code" ≠ none) :
    (renderJs cfg s args input).isSome = true := by
  unfold renderJs
  simp only
  split
  · rename_i heq
    exfalso
    split at heq
    · split at heq
      · exact appendCodes_ne_none _ _ hJ heq
      · cases heq
    · cases heq
  · split
    · rename_i heq
      exfalso
      split at heq
      · split at heq
        · split at heq
          · rename_i h2
            exact appendCodes_ne_none _ _ hD h2
          · cases heq
        · cases heq
      · cases heq
    · rfl

/-- C16: with `_CSS` non-empty and `codes` the `code` fields of its records in
insertion order, `renderCss` returns every code followed by a newline, in that
order; when `comments` is present and not `0` the start line precedes and the
end line follows, and when `comments` is absent or `0` nothing else is added. -/
theorem renderCss_codes (cfg : Config) (s : Silicon) (args : StringMap) (input : String)
    (codes : List String)
    (hne : s.getCollection "_CSS" ≠ [])
    (hc : (s.getCollection "_CSS").map (fun r => find r "code") = codes.map some) :
    (∀ c : String, find args "comments" = some c → c ≠ "0" →
      renderCss cfg s args input =
        some ("<!-- Start styles -->\n" ++ String.join (codes.map fun c => c ++ "\n")
          ++ "<!-- End styles -->\n", s)) ∧
    ((find args "comments" = none ∨ find args "comments" = some "0") →
      renderCss cfg s args input = some (String.join (codes.map fun c => c ++ "\n"), s)) := by
  have he : (s.getCollection "_CSS").isEmpty = false := by
    cases hl : s.getCollection "_CSS" with
    | nil => exact absurd hl hne
    | cons a l => rfl
  constructor
  · intro c h1 h2
    simp only [renderCss, he, h1, bne_iff_ne, ne_eq, h2, not_false_eq_true, decide_True,
      if_true, Bool.false_eq_true, if_false, appendCodes_eq _ codes _ hc, empty_append]
  · rintro (h | h)
    · simp only [renderCss, he, h, Bool.false_eq_true, if_false, appendCodes_eq _ codes _ hc,
        empty_append]
    · simp [renderCss, he, h, appendCodes_eq _ codes _ hc, empty_append]

/-- C16 on two buffered stylesheets, with `comments` set to `1`, set to `0` and
absent. -/
theorem renderCss_codes_witness :
    renderCss cfgDefault ctxAssets [("comments", "1")] "" =
      some ("<!-- Start styles -->\n<link href=\"a.css\" />\n<link href=\"b.css\" />\n<!-- End styles -->\n",
        ctxAssets) ∧
    renderCss cfgDefault ctxAssets [("comments", "0")] "" =
      some ("<link href=\"a.css\" />\n<link href=\"b.css\" />\n", ctxAssets) ∧
    renderCss cfgDefault ctxAssets [] "" =
      some ("<link href=\"a.css\" />\n<link href=\"b.css\" />\n", ctxAssets) :=
  ⟨(renderCss_codes cfgDefault ctxAssets [("comments", "1")] ""
      ["<link href=\"a.css\" />", "<link href=\"b.css\" />"] (by decide) (by decide)).1 "1"
      (by decide) (by decide),
   (renderCss_codes cfgDefault ctxAssets [("comments", "0")] ""
      ["<link href=\"a.css\" />", "<link href=\"b.css\" />"] (by decide) (by decide)).2
      (Or.inr (by decide)),
   (renderCss_codes cfgDefault ctxAssets [] ""
      ["<link href=\"a.css\" />", "<link href=\"b.css\" />"] (by decide) (by decide)).2
      (Or.inl (by decide))⟩

/-- C12: with `_JS` and `_directJS` non-empty, `files` and `direct` their `code`
fields in insertion order, and neither flag set to `0`, `renderJs` returns the
file codes, each followed by a newline, then the inline codes, each followed by
a newline, wrapped in one script element; the start and end comment lines
surround the whole exactly when `comments` is present and not `0`. -/
theorem renderJs_sections (cfg : Config) (s : Silicon) (args : StringMap) (input : String)
    (files direct : List String)
    (hJ : s.getCollection "_JS" ≠ []) (hD : s.getCollection "_directJS" ≠ [])
    (hcJ : (s.getCollection "_JS").map (fun r => find r "code") = files.map some)
    (hcD : (s.getCollection "_directJS").map (fun r => find r "code") = direct.map some)
    (hf : find args "files" ≠ some "0") (hd : find args "direct" ≠ some "0") :
    (∀ c : String, find args "comments" = some c → c ≠ "0" →
      renderJs cfg s args input =
        some ("<!-- Start scripts -->\n" ++ String.join (files.map fun c => c ++ "\n")
          ++ "<script type=\"text/javascript\">" ++ String.join (direct.map fun c => c ++ "\n")
          ++ "</script>\n" ++ "<!-- End scripts -->\n", s)) ∧
    ((find args "comments" = none ∨ find args "comments" = some "0") →
      renderJs cfg s args input =
        some (String.join (files.map fun c => c ++ "\n")
          ++ "<script type=\"text/javascript\">" ++ String.join (direct.map fun c => c ++ "\n")
          ++ "</script>\n", s)) := by
  have heJ : (s.getCollection "_JS").isEmpty = false := by
    cases hl : s.getCollection "_JS" with
    | nil => exact absurd hl hJ
    | cons a l => rfl
  have heD : (s.getCollection "_directJS").isEmpty = false := by
    cases hl : s.getCollection "_directJS" with
    | nil => exact absurd hl hD
    | cons a l => rfl
  constructor
  · intro c h1 h2
    cases hfl : find args "files" <;> cases hdi : find args "direct" <;>
      simp_all [renderJs, appendCodes_eq _ files _ hcJ, appendCodes_eq _ direct _ hcD, empty_append]
  · rintro (h | h)
    · cases hfl : find args "files" <;> cases hdi : find args "direct" <;>
        simp_all [renderJs, appendCodes_eq _ files _ hcJ, appendCodes_eq _ direct _ hcD, empty_append]
    · cases hfl : find args "files" <;> cases hdi : find args "direct" <;>
        simp_all [renderJs, appendCodes_eq _ files _ hcJ, appendCodes_eq _ direct _ hcD, empty_append]

/-- C12 on two buffered script files and two inline bodies, with and without
comments. -/
theorem renderJs_sections_witness :
    renderJs cfgDefault ctxAssets [("comments", "1"), ("files", "1")] "" =
      some ("<!-- Start scripts -->\n<script src=\"a.js\"></script>\n<script src=\"b.js\"></script>\n<script type=\"text/javascript\">f();\ng();\n</script>\n<!-- End scripts -->\n",
        ctxAssets) ∧
    renderJs cfgDefault ctxAssets [] "" =
      some ("<script src=\"a.js\"></script>\n<script src=\"b.js\"></script>\n<script type=\"text/javascript\">f();\ng();\n</script>\n",
        ctxAssets) :=
  ⟨(renderJs_sections cfgDefault ctxAssets [("comments", "1"), ("files", "1")] ""
      ["<script src=\"a.js\"></script>", "<script src=\"b.js\"></script>"] ["f();", "g();"]
      (by decide) (by decide) (by decide) (by decide) (by decide) (by decide)).1 "1"
      (by decide) (by decide),
   (renderJs_sections cfgDefault ctxAssets [] ""
      ["<script src=\"a.js\"></script>", "<script src=\"b.js\"></script>"] ["f();", "g();"]
      (by decide) (by decide) (by decide) (by decide) (by decide) (by decide)).2
      (Or.inl (by decide))⟩

/-! ## The flags of renderJs -/

/-- C19: whatever `renderCss` or `renderJs` returns, the context that comes back
is the one that went in, keywords and collections alike, so the same call made
again returns the same string; and both return a result whenever every record
they read has a `code` field. -/
theorem render_read_only (cfg : Config) (s : Silicon) (args : StringMap) (input : String) :
    (∀ r : String × Silicon, renderCss cfg s args input = some r →
      r.2 = s ∧ renderCss cfg r.2 args input = some r) ∧
    (∀ r : String × Silicon, renderJs cfg s args input = some r →
      r.2 = s ∧ renderJs cfg r.2 args input = some r) ∧
    ((∀ r ∈ s.getCollection "_CSS", find r "code" ≠ none) →
      (renderCss cfg s args input).isSome = true) ∧
    ((∀ r ∈ s.getCollection "_JS", find r "code" ≠ none) →
      (∀ r ∈ s.getCollection "_directJS", find r "code" ≠ none) →
      (renderJs cfg s args input).isSome = true) := by
  refine ⟨?_, ?_, renderCss_isSome cfg s args input, renderJs_isSome cfg s args input⟩
  · intro r h
    have h2 := renderCss_snd cfg s args input r h
    exact ⟨h2, by rw [h2]; exact h⟩
  · intro r h
    have h2 := renderJs_snd cfg s args input r h
    exact ⟨h2, by rw [h2]; exact h⟩

/-- C19 on a context holding two records in each collection. -/
theorem render_read_only_witness :
    (∀ r : String × Silicon, renderCss cfgDefault ctxAssets [("comments", "1")] "" = some r →
      r.2 = ctxAssets ∧ renderCss cfgDefault r.2 [("comments", "1")] "" = some r) ∧
    (renderCss cfgDefault ctxAssets [("comments", "1")] "").isSome = true ∧
    (renderJs cfgDefault ctxAssets [] "").isSome = true ∧
    (∀ r : String × Silicon, renderJs cfgDefault ctxAssets [] "" = some r →
      r.2 = ctxAssets ∧ renderJs cfgDefault r.2 [] "" = some r) :=
  have h := render_read_only cfgDefault ctxAssets [] ""
  have h1 := render_read_only cfgDefault ctxAssets [("comments", "1")] ""
  ⟨h1.1, h1.2.2.1 (by decide), h.2.2.2 (by decide) (by decide), h.2.1⟩

/-- C20: in immediate mode `includeCss` and `includeJs` return the context they
were given, for every argument map, so no record is added and no keyword
changes, and a later `renderCss` or `renderJs` returns what it would have
returned without the call. -/
theorem include_immediate_frame (cfg : Config) (s : Silicon) (args : StringMap)
    (input : String) (hmode : getDoRender cfg s = true) :
    (∃ out : String, includeCss cfg s args input = some (out, s)) ∧
    (∃ out : String, includeJs cfg s args input = some (out, s)) ∧
    (∀ (r : String × Silicon) (args' : StringMap) (input' : String),
      (includeCss cfg s args input = some r ∨ includeJs cfg s args input = some r) →
      renderCss cfg r.2 args' input' = renderCss cfg s args' input' ∧
      renderJs cfg r.2 args' input' = renderJs cfg s args' input') := by
  have hc : ∃ out : String, includeCss cfg s args input = some (out, s) := by
    unfold includeCss
    cases find args "file" with
    | none => exact ⟨"", rfl⟩
    | some f => simp only [hmode, if_true]; exact ⟨_, rfl⟩
  have hj : ∃ out : String, includeJs cfg s args input = some (out, s) := by
    unfold includeJs
    cases find args "file" with
    | none => exact ⟨"", rfl⟩
    | some f => simp only [hmode, if_true]; exact ⟨_, rfl⟩
  refine ⟨hc, hj, ?_⟩
  intro r args' input' h
  obtain ⟨o1, h1⟩ := hc
  obtain ⟨o2, h2⟩ := hj
  have hr : r.2 = s := by
    rcases h with h | h
    · rw [h1] at h; cases h; rfl
    · rw [h2] at h; cases h; rfl
  rw [hr]
  exact ⟨rfl, rfl⟩

/-- C20 with `file = c.css` on a context that renders immediately and holds
earlier buffered records. -/
theorem include_immediate_frame_witness :
    (∃ out : String, includeCss cfgDefault ctxAssets [("file", "c.css")] "" =
      some (out, ctxAssets)) ∧
    (∃ out : String, includeJs cfgDefault ctxAssets [("file", "c.css")] "" =
      some (out, ctxAssets)) ∧
    (∀ (r : String × Silicon) (args' : StringMap) (input' : String),
      (includeCss cfgDefault ctxAssets [("file", "c.css")] "" = some r ∨
        includeJs cfgDefault ctxAssets [("file", "c.css")] "" = some r) →
      renderCss cfgDefault r.2 args' input' = renderCss cfgDefault ctxAssets args' input' ∧
      renderJs cfgDefault r.2 args' input' = renderJs cfgDefault ctxAssets args' input') :=
  include_immediate_frame cfgDefault ctxAssets [("file", "c.css")] "" (by decide)

end SiliconWeb
